import Mathlib

/-!
Verification development for the Canada housing stress metric ETL scripts.

The repository is a set of linear pandas pipelines (pipeline.py,
fact_core_province_stress.py, household_interest_income_dsr.py,
mortgage_amount_canada_housing.py, interest_Rate.py) that filter and
reshape StatCan / Bank of Canada tables onto a (Province, Quarter) grain
and join them into fact tables.  This file gives a shallow embedding of
the normalization and join layer: tables are lists of rows, numeric
cells are Option values of the rationals (none models pandas NaN after
to_numeric coercion), dates are a concrete calendar-date structure, and
pandas operations (merge, groupby, duplicated, pct_change, sort_values)
are translated into executable list functions.
-/

/-- Calendar date, as produced by the temporal bucketizer.  Pandas
timestamps at quarter or month grain are always midnight on the first
day, so year/month/day is a faithful carrier for every date the
pipelines construct. -/
structure Date where
  year : Nat
  month : Nat
  day : Nat
deriving DecidableEq

/-- Lowercase a character, mirroring Python str.lower on ASCII.  The
pipelines only lowercase ASCII labels such as SCALAR_FACTOR values. -/
def lowerChar (c : Char) : Char :=
  if 65 ≤ c.toNat ∧ c.toNat ≤ 90 then Char.ofNat (c.toNat + 32) else c

/-- Lowercase a string (Python str.lower restricted to ASCII). -/
def lowerStr (s : String) : String :=
  String.mk (s.data.map lowerChar)

/-- Boolean lexicographic comparison on character lists, used to embed
pandas sort_values on string columns. -/
def charListLe : List Char → List Char → Bool
  | [], _ => true
  | _ :: _, [] => false
  | a :: as, b :: bs =>
    if a.toNat < b.toNat then true
    else if a.toNat = b.toNat then charListLe as bs
    else false

/-- Boolean string comparison for sort_values. -/
def strLeB (a b : String) : Bool := charListLe a.data b.data

/-- Boolean date comparison for sort_values. -/
def dateLeB (a b : Date) : Bool :=
  if a.year < b.year then true
  else if a.year = b.year then
    (if a.month < b.month then true
     else if a.month = b.month then a.day ≤ b.day
     else false)
  else false

/-- Insertion of an element into a sorted list, helper for the stable
sort that embeds DataFrame.sort_values. -/
def insertSorted {α : Type} (le : α → α → Bool) (a : α) : List α → List α
  | [] => [a]
  | b :: l => if le a b then a :: b :: l else b :: insertSorted le a l

/-- Stable insertion sort embedding DataFrame.sort_values: the output is
a permutation of the input ordered by the given comparison. -/
def sortIns {α : Type} (le : α → α → Bool) : List α → List α
  | [] => []
  | a :: l => insertSorted le a (sortIns le l)

/-- Numeric value of a decimal digit character. -/
def digitVal (c : Char) : Nat := c.toNat - 48

/-- Numeric value of a digit string, most significant digit first. -/
def valOfDigits (cs : List Char) : Nat :=
  cs.foldl (fun a c => 10 * a + digitVal c) 0

/-- Decimal digit test on the character code. -/
def isDigitB (c : Char) : Bool := 48 ≤ c.toNat && c.toNat ≤ 57

/-- Parse a nonempty all-digit character list to a natural number;
any other input gives none. -/
def parseNatDigits (cs : List Char) : Option Nat :=
  if cs ≠ [] ∧ ∀ c ∈ cs, isDigitB c then some (valOfDigits cs) else none

/-- First calendar day of the month of a date (pandas
to_period("M").to_timestamp()). -/
def monthStartOf (d : Date) : Date := ⟨d.year, d.month, 1⟩

/-- First calendar day of the quarter of a date (pandas
to_period("Q").to_timestamp()): Q1 = Jan 1, Q2 = Apr 1, Q3 = Jul 1,
Q4 = Oct 1. -/
def quarterStartOfDate (d : Date) : Date :=
  ⟨d.year, 3 * ((d.month - 1) / 3) + 1, 1⟩

/-- Linear quarter index of a date, used to speak about a quarter being
exactly four quarterly periods earlier. -/
def quarterIndex (d : Date) : Nat := 4 * d.year + (d.month - 1) / 3

/-- Splits a character list on ASCII char 45, the hyphen. -/
def splitHyphen (cs : List Char) : List (List Char) :=
  match cs with
  | [] => [[]]
  | c :: rest =>
    let r := splitHyphen rest
    if c.toNat = 45 then [] :: r
    else match r with
      | [] => [[c]]
      | g :: gs => (c :: g) :: gs

/-- Model of pd.to_datetime(errors=coerce) on the ISO-style inputs the
StatCan tables carry (REF_DATE of the shape YYYY-MM or YYYY-MM-DD).
Anything else coerces to none, never to a sentinel date and never to an
exception.  Other formats accepted by pandas do not occur in these
tables and are left unmodeled. -/
def toDateCoerce (s : String) : Option Date :=
  match splitHyphen s.data with
  | [ys, ms] =>
    match parseNatDigits ys, parseNatDigits ms with
    | some y, some m => if 1 ≤ m ∧ m ≤ 12 then some ⟨y, m, 1⟩ else none
    | _, _ => none
  | [ys, ms, ds] =>
    match parseNatDigits ys, parseNatDigits ms, parseNatDigits ds with
    | some y, some m, some d =>
      if 1 ≤ m ∧ m ≤ 12 ∧ 1 ≤ d ∧ d ≤ 31 then some ⟨y, m, d⟩ else none
    | _, _, _ => none
  | _ => none

/-- Embeds to_month_start of pipeline.py: coercing date parse followed
by truncation to the first of the month; unparseable input gives none. -/
def to_month_start (s : String) : Option Date :=
  (toDateCoerce s).map monthStartOf

/-- Embeds to_quarter_start_from_date of pipeline.py: coercing date
parse followed by truncation to the first day of the quarter. -/
def to_quarter_start_from_date (s : String) : Option Date :=
  (toDateCoerce s).map quarterStartOfDate

/-- True for the letter Q in either case. -/
def isQChar (c : Char) : Bool := c.toNat = 81 || c.toNat = 113

/-- Splits a character list at the first Q or q; none when no such
letter occurs. -/
def splitAtQ : List Char → Option (List Char × List Char)
  | [] => none
  | c :: rest =>
    if isQChar c then some ([], rest)
    else (splitAtQ rest).map (fun p => (c :: p.1, p.2))

/-- Month of the first day of quarter n. -/
def quarterMonth (n : Nat) : Nat := 3 * (n - 1) + 1

/-- Single-token model of parse_quarter in
household_interest_income_dsr.py: strip spaces and hyphens (the source
normalizes the separator styles none, hyphen and space), then read a
native quarter token year-digits Q digit with the quarter digit between
1 and 4, in either letter case, giving the quarter-start date.  A token
that does not have this shape gives none, which at series level models
the pandas PeriodIndex constructor raising. -/
def parse_quarter_token (s : String) : Option Date :=
  let cs := s.data.filter (fun c => !(c.toNat = 32 || c.toNat = 45))
  match splitAtQ cs with
  | none => none
  | some (ys, qs) =>
    match parseNatDigits ys with
    | none => none
    | some y =>
      match qs with
      | [d] =>
        if 49 ≤ d.toNat ∧ d.toNat ≤ 52 then some ⟨y, quarterMonth (digitVal d), 1⟩
        else none
      | _ => none

/-- Series-level model of parse_quarter: pd.PeriodIndex is constructed
over the whole REF_DATE column and raises on the first unparseable
token, so the result is none (run aborted) unless every token parses. -/
def parse_quarter (tokens : List String) : Option (List Date) :=
  match tokens with
  | [] => some []
  | t :: ts =>
    match parse_quarter_token t, parse_quarter ts with
    | some d, some ds => some (d :: ds)
    | _, _ => none

/-- Pandas left merge (how=left) of two tables on a shared key: every
left row survives; a left row with no key match gets none for the right
columns; a left row with several matches is repeated once per match, in
right-table order. -/
def leftMerge {α β κ : Type} [DecidableEq κ] (ka : α → κ) (kb : β → κ)
    (ta : List α) (tb : List β) : List (α × Option β) :=
  ta.flatMap (fun a =>
    match tb.filter (fun b => decide (kb b = ka a)) with
    | [] => [(a, none)]
    | m => m.map (fun b => (a, some b)))

/-- Pandas outer merge (how=outer) on a shared key: matched pairs as in
the left merge, followed by the right rows whose key matches no left
row. -/
def outerMerge {α β κ : Type} [DecidableEq κ] (ka : α → κ) (kb : β → κ)
    (ta : List α) (tb : List β) : List (Option α × Option β) :=
  (ta.flatMap (fun a =>
    match tb.filter (fun b => decide (kb b = ka a)) with
    | [] => [((some a : Option α), (none : Option β))]
    | m => m.map (fun b => (some a, some b)))) ++
  ((tb.filter (fun b => decide (∀ a ∈ ta, kb b ≠ ka a))).map
    (fun b => ((none : Option α), some b)))

/-- Key of an outer-merged row: the on-columns are coalesced, so the key
comes from whichever side is present. -/
def mKey {α β κ : Type} (ka : α → κ) (kb : β → κ) (dflt : κ) :
    Option α × Option β → κ
  | (some a, _) => ka a
  | (none, some b) => kb b
  | (none, none) => dflt

/-- Duplicate flags of a key sequence, exactly as
DataFrame.duplicated(keys): a row is flagged when its key already
occurred earlier. -/
def dupFlags {κ : Type} [DecidableEq κ] (seen : List κ) : List κ → List Bool
  | [] => []
  | k :: ks => decide (k ∈ seen) :: dupFlags (k :: seen) ks

/-- Embeds df.duplicated(keys).sum(): the number of rows whose key
already appeared in an earlier row. -/
def dupCount {ρ κ : Type} [DecidableEq κ] (key : ρ → κ) (rows : List ρ) : Nat :=
  (dupFlags [] (rows.map key)).count true

/-- Mean reducer of groupby: pandas mean skips missing values and
yields NaN for an all-missing group. -/
def meanAgg (l : List ℚ) : Option ℚ :=
  if l = [] then none else some (l.sum / l.length)

/-- Sum reducer of groupby: pandas sum skips missing values and yields
0 for an all-missing group. -/
def sumAgg (l : List ℚ) : ℚ := l.sum

/-- Last reducer of groupby: pandas GroupBy.last takes the last
non-missing value of the group, NaN when all are missing. -/
def lastAgg (l : List ℚ) : Option ℚ := l.getLast?

/-- Embeds DataFrame.groupby(keys, as_index=False).agg: rows whose key
is missing are dropped (groupby dropna), the distinct keys are listed in
sorted order (groupby sort=True), and the reducer is applied to the
non-missing values of each group in row order. -/
def groupAgg {ρ κ μ : Type} [DecidableEq κ] (key : ρ → Option κ)
    (val : ρ → Option ℚ) (agg : List ℚ → μ) (kle : κ → κ → Bool)
    (rows : List ρ) : List (κ × μ) :=
  (sortIns kle (rows.filterMap key).dedup).map
    (fun k => (k, agg (((rows.filter (fun r => decide (key r = some k))).map val).reduceOption)))

/-- String constant: the national aggregate geography. -/
def canadaTok : String := "Canada"

/-- String constant: scalar factor units. -/
def unitsTok : String := "units"

/-- String constant: scalar factor unit (singular). -/
def unitTok : String := "unit"

/-- String constant: scalar factor thousands. -/
def thousandsTok : String := "thousands"

/-- String constant: scalar factor thousand (singular). -/
def thousandTok : String := "thousand"

/-- String constant: scalar factor millions. -/
def millionsTok : String := "millions"

/-- String constant: scalar factor million (singular). -/
def millionTok : String := "million"

/-- String constant: scalar factor billions. -/
def billionsTok : String := "billions"

/-- String constant: scalar factor billion (singular). -/
def billionTok : String := "billion"

/-- Scalar-factor dictionary of fact_core_province_stress.py
(SCALAR_MAP), as the finite map it is: a present key gives its
multiplier, an absent key gives none (which Series.map turns into NaN
before fillna). -/
def SCALAR_MAP (s : String) : Option ℚ :=
  if s = unitsTok then some 1
  else if s = thousandsTok then some 1000
  else if s = millionsTok then some 1000000
  else if s = billionsTok then some 1000000000
  else none

/-- Scalar-factor dictionary of mortgage_amount_canada_housing.py,
which also lists the singular spellings. -/
def SCALAR_MAP_MORT (s : String) : Option ℚ :=
  if s = unitsTok then some 1
  else if s = unitTok then some 1
  else if s = thousandsTok then some 1000
  else if s = thousandTok then some 1000
  else if s = millionsTok then some 1000000
  else if s = millionTok then some 1000000
  else if s = billionsTok then some 1000000000
  else if s = billionTok then some 1000000000
  else none

/-- Embeds apply_scalar of fact_core_province_stress.py on one cell:
the scalar factor is lowercased, looked up in SCALAR_MAP, missing
entries fall back to multiplier 1 (fillna(1)), and the value is
multiplied. -/
def apply_scalar (value : ℚ) (scalar : String) : ℚ :=
  value * ((SCALAR_MAP (lowerStr scalar)).getD 1)

/-- Embeds apply_scalar_to_cad of mortgage_amount_canada_housing.py on
one cell: scalar none models a table without a SCALAR_FACTOR column
(multiplier 1); otherwise lowercased lookup in SCALAR_MAP_MORT with
fillna(1).  Returns the base-unit value and the derived million-CAD
value, the latter computed from the base-unit value. -/
def apply_scalar_to_cad (value : ℚ) (scalar : Option String) : ℚ × ℚ :=
  let mult : ℚ :=
    match scalar with
    | none => 1
    | some s => ((SCALAR_MAP_MORT (lowerStr s)).getD 1)
  let cad := value * mult
  (cad, cad / 1000000)

/-- Multiplier table as the spec words it: a fixed four-entry
case-insensitive table, everything else mapping to 1. -/
def specMultiplier (s : String) : ℚ :=
  if lowerStr s = unitsTok then 1
  else if lowerStr s = thousandsTok then 1000
  else if lowerStr s = millionsTok then 1000000
  else if lowerStr s = billionsTok then 1000000000
  else 1

/-- Multiplier table of the mortgage script stated as a case split:
the four plural entries, their singular spellings, default 1. -/
def specMultiplierMort (s : String) : ℚ :=
  if lowerStr s = unitsTok ∨ lowerStr s = unitTok then 1
  else if lowerStr s = thousandsTok ∨ lowerStr s = thousandTok then 1000
  else if lowerStr s = millionsTok ∨ lowerStr s = millionTok then 1000000
  else if lowerStr s = billionsTok ∨ lowerStr s = billionTok then 1000000000
  else 1

/-- String constant: first disposable-income target label. -/
def disposableTok : String := "Disposable income"

/-- String constant: second disposable-income target label. -/
def householdDisposableTok : String := "Household disposable income"

/-- String constant: third disposable-income target label. -/
def disposableHouseholdsTok : String := "Disposable income, households"

/-- The ordered target-label list DISPOSABLE_LABELS of pipeline.py and
fact_core_province_stress.py. -/
def DISPOSABLE_LABELS : List String :=
  [disposableTok, householdDisposableTok, disposableHouseholdsTok]

/-- Embeds the label resolution step: next(x for x in targets if x in
avail), where avail is the set of observed values of the resolved
concept column.  The first target present among the observed values
wins. -/
def pickLabel (targets : List String) (avail : List String) : Option String :=
  targets.find? (fun t => avail.contains t)

/-- Embeds Series.pct_change(4) inside one groupby group (pandas 3
default fill semantics, no padding): the value at position i is
v(i)/v(i-4) - 1, missing when i has fewer than four predecessors or
either endpoint is missing.  The shift is by four positions of the
series, which is how pandas implements it. -/
def pctChange4 (vals : List (Option ℚ)) (i : Nat) : Option ℚ :=
  if i < 4 then none
  else
    match (vals.get? (i - 4)).join, (vals.get? i).join with
    | some p, some c => some (c / p - 1)
    | _, _ => none

/-- Province-and-quarter key of the provincial quarterly tables. -/
abbrev PQ := String × Date

/-- Embeds groupby(Province)[col].pct_change(4) * 100 over a table that
is sorted by (Province, Quarter): each row receives the positional
year-over-year percentage computed within its province group. -/
def addYoy (rows : List (PQ × Option ℚ)) : List (PQ × (Option ℚ × Option ℚ)) :=
  rows.enum.map (fun ir =>
    let g := (rows.take (ir.1 + 1)).filter (fun s => decide (s.1.1 = ir.2.1.1))
    (ir.2.1, (ir.2.2,
      (pctChange4 (g.map (fun s => s.2)) (g.length - 1)).map (fun x => x * 100))))

/-- Modelled from the spec: yoy_pct(t) = (value(t) - value(t-4)) /
value(t-4) * 100 where t-4 is the quarter exactly four quarterly
periods earlier for the same entity, null when either endpoint is
missing.  Used only to compare the code's positional pct_change against
the calendar reading of the spec. -/
def yoy_spec_by_quarter (rows : List (PQ × Option ℚ)) (p : String) (d : Date) :
    Option ℚ :=
  let cur := (rows.find? (fun r => decide (r.1 = (p, d)))).bind (fun r => r.2)
  let prev := (rows.find? (fun r =>
    decide (r.1.1 = p ∧ quarterIndex r.1.2 + 4 = quarterIndex d))).bind (fun r => r.2)
  match cur, prev with
  | some c, some p0 => some ((c - p0) / p0 * 100)
  | _, _ => none

/-- IEEE-style value carried by a float column: a finite rational, a
signed infinity, or NaN (which doubles as the missing marker in
pandas).  Finite arithmetic is modeled exactly over the rationals;
rounding does not affect which of the four shapes a result has in the
cases the pipelines exercise. -/
inductive Val where
  | fin (q : ℚ)
  | inf
  | ninf
  | nan
deriving DecidableEq

/-- Embeds Series.isna on a float cell: only NaN is missing; the
infinities are not. -/
def isna : Val → Bool
  | .nan => true
  | _ => false

/-- Float multiplication on the value shapes (IEEE rules). -/
def vmul : Val → Val → Val
  | .nan, _ => .nan
  | _, .nan => .nan
  | .fin a, .fin b => .fin (a * b)
  | .inf, .fin b => if b = 0 then .nan else if 0 < b then .inf else .ninf
  | .fin a, .inf => if a = 0 then .nan else if 0 < a then .inf else .ninf
  | .ninf, .fin b => if b = 0 then .nan else if 0 < b then .ninf else .inf
  | .fin a, .ninf => if a = 0 then .nan else if 0 < a then .ninf else .inf
  | .inf, .inf => .inf
  | .inf, .ninf => .ninf
  | .ninf, .inf => .ninf
  | .ninf, .ninf => .inf

/-- Float division on the value shapes (IEEE rules, with the positive
zero that pandas numeric coercion produces): a nonzero finite value
divided by zero is a signed infinity, zero by zero is NaN. -/
def vdiv : Val → Val → Val
  | .nan, _ => .nan
  | _, .nan => .nan
  | .fin a, .fin b =>
    if b = 0 then (if a = 0 then .nan else if 0 < a then .inf else .ninf)
    else .fin (a / b)
  | .inf, .fin b => if 0 ≤ b then .inf else .ninf
  | .ninf, .fin b => if 0 ≤ b then .ninf else .inf
  | .fin _, .inf => .fin 0
  | .fin _, .ninf => .fin 0
  | _, _ => .nan

/-- String constant: the CPI all-items product label. -/
def allItemsTok : String := "All-items"

/-- String constant: the CPI base CPI_BASE of pipeline.py. -/
def cpiBaseTok : String := "2002=100"

/-- String constant: the labour force characteristic filtered on. -/
def unempRateTok : String := "Unemployment rate"

/-- String constant: optional Sex filter value. -/
def bothSexesTok : String := "Both sexes"

/-- String constant: optional Age group filter value. -/
def age15Tok : String := "15 years and over"

/-- String constant: optional Data type filter value. -/
def seasAdjTok : String := "Seasonally adjusted"

/-- String constant: optional UOM filter value for unemployment. -/
def percentTok : String := "Percent"

/-- String constant: the keyword scanned for in the mortgage table. -/
def outstandingTok : String := "outstanding"

/-- String constant: the empty string. -/
def emptyTok : String := ""

/-- Raw CPI row of pipeline.py after numeric_value coercion: VALUE is
none when the raw cell was non-numeric; product is the Products and
product groups dimension value. -/
structure CpiRow where
  GEO : String
  REF_DATE : String
  VALUE : Option ℚ
  product : String
  UOM : String
deriving DecidableEq

/-- Raw LFS row: lfs is the labour force characteristics value; the
remaining dimensions are optional because pipeline.py applies those
filters only when the column exists (none models an absent column). -/
structure UnempRow where
  GEO : String
  REF_DATE : String
  VALUE : Option ℚ
  lfs : String
  sex : Option String
  ageGroup : Option String
  dataType : Option String
  uom : Option String
deriving DecidableEq

/-- Raw income row: concept is the value of the detected concept
column. -/
structure IncomeRow where
  GEO : String
  REF_DATE : String
  VALUE : Option ℚ
  concept : String
deriving DecidableEq

/-- Raw non-bank mortgage row: objCols lists the values of the object
dtype columns of the row, which pipeline.py scans for the keyword
outstanding. -/
structure MortRow where
  GEO : String
  REF_DATE : String
  VALUE : Option ℚ
  objCols : List String
deriving DecidableEq

/-- Joins strings with single spaces, as the row scan of pipeline.py
does before searching for a keyword. -/
def joinSpaced : List String → String
  | [] => emptyTok
  | [s] => s
  | s :: rest => s ++ " " ++ joinSpaced rest

/-- Boolean prefix test on character lists. -/
def startsWithB : List Char → List Char → Bool
  | [], _ => true
  | _ :: _, [] => false
  | a :: as, b :: bs => decide (a = b) && startsWithB as bs

/-- Boolean contiguous-subsequence test on character lists, embedding
the Python in operator on strings. -/
def containsSeq (needle : List Char) : List Char → Bool
  | [] => startsWithB needle []
  | c :: cs => startsWithB needle (c :: cs) || containsSeq needle cs

/-- Embeds row_contains_any(row, outstanding) of pipeline.py: the
object-column values joined with spaces and lowercased contain the
keyword. -/
def rowContainsOutstanding (r : MortRow) : Bool :=
  containsSeq outstandingTok.data (lowerStr (joinSpaced r.objCols)).data

/-- Sort order on the (Province, Quarter) key used by sort_values and
by groupby(sort=True). -/
def pqLe (a b : PQ) : Bool :=
  if a.1 = b.1 then dateLeB a.2 b.2 else strLeB a.1 b.1

/-- Row filter of the CPI stage (pipeline.py lines 137-141): all-items
product, the chosen index base, provinces only. -/
def cpiFilter (r : CpiRow) : Bool :=
  decide (r.product = allItemsTok) && decide (r.UOM = cpiBaseTok) &&
    !(decide (r.GEO = canadaTok))

/-- Grouping key of a CPI row: month start of REF_DATE, then the start
of that quarter, paired with the province; none when the date does not
parse, which drops the row from the groupby. -/
def cpiKey (r : CpiRow) : Option PQ :=
  (to_month_start r.REF_DATE).map (fun m => (r.GEO, quarterStartOfDate m))

/-- Embeds cpi_q of pipeline.py: filter, quarterly mean by (Province,
Quarter), sort, then the positional year-over-year column. -/
def cpi_q (rows : List CpiRow) : List (PQ × (Option ℚ × Option ℚ)) :=
  addYoy (sortIns (fun a b => pqLe a.1 b.1)
    (groupAgg cpiKey (fun r => r.VALUE) meanAgg pqLe (rows.filter cpiFilter)))

/-- Apply one optional exact filter: a none column is absent, so the
filter is skipped (pipeline.py applies it only if the column exists). -/
def optFilter (v : Option String) (target : String) : Bool :=
  match v with
  | none => true
  | some s => decide (s = target)

/-- Row filter of the unemployment stage (pipeline.py lines 175-195). -/
def unempFilter (r : UnempRow) : Bool :=
  decide (r.lfs = unempRateTok) && optFilter r.sex bothSexesTok &&
    optFilter r.ageGroup age15Tok && optFilter r.dataType seasAdjTok &&
    optFilter r.uom percentTok && !(decide (r.GEO = canadaTok))

/-- Grouping key of an LFS row (month start, then quarter start). -/
def unempKey (r : UnempRow) : Option PQ :=
  (to_month_start r.REF_DATE).map (fun m => (r.GEO, quarterStartOfDate m))

/-- Embeds unemp_q of pipeline.py: filter then quarterly mean. -/
def unemp_q (rows : List UnempRow) : List (PQ × Option ℚ) :=
  groupAgg unempKey (fun r => r.VALUE) meanAgg pqLe (rows.filter unempFilter)

/-- Grouping key of an income row: quarter start of REF_DATE. -/
def incomeKey (r : IncomeRow) : Option PQ :=
  (to_quarter_start_from_date r.REF_DATE).map (fun q => (r.GEO, q))

/-- Row filter of the income stage (pipeline.py lines 245-259):
provinces only, then the resolved disposable-income label by exact
match.  The resolved label is a parameter; pipeline.py obtains it with
pickLabel over DISPOSABLE_LABELS. -/
def incomeFilter (label : String) (r : IncomeRow) : Bool :=
  !(decide (r.GEO = canadaTok)) && decide (r.concept = label)

/-- Embeds income_q of pipeline.py: filter then quarterly sum. -/
def income_q (label : String) (rows : List IncomeRow) : List (PQ × ℚ) :=
  groupAgg incomeKey (fun r => r.VALUE) sumAgg pqLe
    (rows.filter (incomeFilter label))

/-- Grouping key of a mortgage row (quarter start of REF_DATE). -/
def mortKey (r : MortRow) : Option PQ :=
  (to_quarter_start_from_date r.REF_DATE).map (fun q => (r.GEO, q))

/-- Row filter of the mortgage stage (pipeline.py lines 283-288):
provinces only and the outstanding keyword scan. -/
def mortFilter (r : MortRow) : Bool :=
  !(decide (r.GEO = canadaTok)) && rowContainsOutstanding r

/-- Embeds mort_q of pipeline.py: filter then quarterly sum. -/
def mort_q (rows : List MortRow) : List (PQ × ℚ) :=
  groupAgg mortKey (fun r => r.VALUE) sumAgg pqLe (rows.filter mortFilter)

/-- Prepares one Bank of Canada series as download_boc_series_json
does: rows whose date failed to parse are dropped, the rest sorted by
date. -/
def ratesDropSort (obs : List (Option Date × Option ℚ)) : List (Date × Option ℚ) :=
  sortIns (fun a b => dateLeB a.1 b.1)
    (obs.filterMap (fun p => p.1.map (fun d => (d, p.2))))

/-- One rate series at quarterly grain: groupby(Quarter).last(), the
last non-missing observation of each quarter. -/
def ratesGrouped (obs : List (Option Date × Option ℚ)) : List (Date × Option ℚ) :=
  groupAgg (fun p => some (quarterStartOfDate p.1)) (fun p => p.2) lastAgg
    dateLeB (ratesDropSort obs)

/-- Quarterly rate row: quarter start, prime rate, posted 5-year
mortgage rate. -/
abbrev RateQ := Date × (Option ℚ × Option ℚ)

/-- Coalesces the outer-merged pair of rate series onto the shared
Quarter key column. -/
def coalesceRates :
    Option (Date × Option ℚ) × Option (Date × Option ℚ) → RateQ
  | (some a, some b) => (a.1, (a.2, b.2))
  | (some a, none) => (a.1, (a.2, none))
  | (none, some b) => (b.1, (none, b.2))
  | (none, none) => (⟨0, 1, 1⟩, (none, none))

/-- Embeds rates_q of pipeline.py: quarter-end value of each series,
outer merge on Quarter, sorted by Quarter. -/
def rates_q (prime mort5 : List (Option Date × Option ℚ)) : List RateQ :=
  sortIns (fun a b => dateLeB a.1 b.1)
    ((outerMerge (fun p => p.1) (fun p => p.1)
      (ratesGrouped prime) (ratesGrouped mort5)).map coalesceRates)

/-- Quarterly income row (key and summed value). -/
abbrev IncQ := PQ × ℚ

/-- Quarterly CPI row (key, quarterly mean, year-over-year). -/
abbrev CpiQ := PQ × (Option ℚ × Option ℚ)

/-- Quarterly unemployment row. -/
abbrev UnQ := PQ × Option ℚ

/-- Quarterly mortgage row. -/
abbrev MortQ := PQ × ℚ

/-- Row shapes of the successive left merges of pipeline.py line
297-303. -/
abbrev Fact1 := IncQ × Option CpiQ

/-- Second merge stage row. -/
abbrev Fact2 := Fact1 × Option UnQ

/-- Third merge stage row. -/
abbrev Fact3 := Fact2 × Option MortQ

/-- Final fact row: income base joined with CPI, unemployment,
mortgages on (Province, Quarter) and with rates on Quarter alone. -/
abbrev FactRow := Fact3 × Option RateQ

/-- The four successive left merges building the fact table. -/
def factMerged (label : String) (inc : List IncomeRow) (cpi : List CpiRow)
    (un : List UnempRow) (mo : List MortRow)
    (pr m5 : List (Option Date × Option ℚ)) : List FactRow :=
  leftMerge (fun f : Fact3 => f.1.1.1.1.2) (fun q : RateQ => q.1)
    (leftMerge (fun f : Fact2 => f.1.1.1) (fun m : MortQ => m.1)
      (leftMerge (fun f : Fact1 => f.1.1) (fun u : UnQ => u.1)
        (leftMerge (fun a : IncQ => a.1) (fun c : CpiQ => c.1)
          (income_q label inc) (cpi_q cpi))
        (unemp_q un))
      (mort_q mo))
    (rates_q pr m5)

/-- Embeds fact of pipeline.py: the merge sequence sorted by
(Province, Quarter). -/
def fact (label : String) (inc : List IncomeRow) (cpi : List CpiRow)
    (un : List UnempRow) (mo : List MortRow)
    (pr m5 : List (Option Date × Option ℚ)) : List FactRow :=
  sortIns (fun a b => pqLe a.1.1.1.1.1 b.1.1.1.1.1)
    (factMerged label inc cpi un mo pr m5)

/-- Province column of a fact row. -/
def provinceOf (r : FactRow) : String := r.1.1.1.1.1.1

/-- Quarter column of a fact row. -/
def quarterOf (r : FactRow) : Date := r.1.1.1.1.1.2

/-- DisposableIncome_Q column of a fact row (from the base table, a
plain rational because groupby sum never yields NaN). -/
def disposableIncomeQ (r : FactRow) : ℚ := r.1.1.1.1.2

/-- NonBankMortgagesOutstanding_Q column as a float value: NaN when the
left join found no mortgage row for the key. -/
def nonBankMortVal (r : FactRow) : Val :=
  match r.1.2 with
  | none => Val.nan
  | some m => Val.fin m.2

/-- Mortgage5YPosted_QEnd_Pct column as a float value: NaN when the
rates table had no row for the quarter or the grouped value was
missing. -/
def mortgage5Val (r : FactRow) : Val :=
  match r.2 with
  | none => Val.nan
  | some q =>
    match q.2.2 with
    | none => Val.nan
    | some x => Val.fin x

/-- Embeds pipeline.py line 307-309: InterestCostProxy_Q = outstanding
balance times (rate / 100). -/
def interestCostProxyQ (r : FactRow) : Val :=
  vmul (nonBankMortVal r) (vdiv (mortgage5Val r) (Val.fin 100))

/-- Embeds pipeline.py line 311: the interest service proxy column,
InterestCostProxy_Q / DisposableIncome_Q under float semantics. -/
def interestServiceQ (r : FactRow) : Val :=
  vdiv (interestCostProxyQ r) (Val.fin (disposableIncomeQ r))

/-- Key of the household DSR fact: (Period_Quarter, GEO). -/
abbrev SKey := Date × String

/-- One filtered series row of household_interest_income_dsr.py. -/
abbrev SRow := SKey × Option ℚ

/-- Key projection of a series row. -/
def sKey (r : SRow) : SKey := r.1

/-- Row of the first outer merge (income with interest). -/
abbrev DRow1 := Option SRow × Option SRow

/-- Coalesced key of a first-stage merged row. -/
def dKey1 : DRow1 → SKey := mKey sKey sKey (⟨0, 1, 1⟩, emptyTok)

/-- Row of the final merged DSR table. -/
abbrev DRow := Option DRow1 × Option SRow

/-- Coalesced key of a final merged row. -/
def dKey : DRow → SKey := mKey dKey1 sKey (⟨0, 1, 1⟩, emptyTok)

/-- The merged (outer join) and sorted DSR table of
household_interest_income_dsr.py lines 112-117: income, interest and
debt-service-ratio series outer-joined on (Period_Quarter, GEO) and
sorted by (GEO, Period_Quarter). -/
def dsrMerged (inc intr dsrT : List SRow) : List DRow :=
  sortIns (fun a b =>
      if (dKey a).2 = (dKey b).2 then dateLeB (dKey a).1 (dKey b).1
      else strLeB (dKey a).2 (dKey b).2)
    (outerMerge dKey1 sKey (outerMerge sKey sKey inc intr) dsrT)

/-- Message prefix of the duplicate guard raise. -/
def dupMsgPrefix : String := "Duplicate Quarter+GEO rows found after merge: "

/-- Embeds the merge-then-guard sequence of
household_interest_income_dsr.py lines 112-122: after the outer joins
complete, out.duplicated([Period_Quarter, GEO]).sum() is computed and a
positive count raises with the count in the message; otherwise the
merged table is released unchanged. -/
def dsr_join (inc intr dsrT : List SRow) : Except String (List DRow) :=
  let out := dsrMerged inc intr dsrT
  let d := dupCount dKey out
  if 0 < d then Except.error (dupMsgPrefix ++ Nat.repr d) else Except.ok out

theorem insertSorted_perm {α : Type} (le : α → α → Bool) (a : α) (l : List α) :
    (insertSorted le a l).Perm (a :: l) := by
  induction l with
  | nil => simp [insertSorted]
  | cons b t ih =>
    by_cases h : le a b
    · simp [insertSorted, h]
    · simp only [insertSorted, if_neg h]
      exact (ih.cons b).trans (List.Perm.swap a b t)

theorem sortIns_perm {α : Type} (le : α → α → Bool) (l : List α) :
    (sortIns le l).Perm l := by
  induction l with
  | nil => simp [sortIns]
  | cons a t ih => exact (insertSorted_perm le a (sortIns le t)).trans (ih.cons a)

theorem leftMerge_fst_mem {α β κ : Type} [DecidableEq κ] (ka : α → κ)
    (kb : β → κ) (ta : List α) (tb : List β) (p : α × Option β)
    (hp : p ∈ leftMerge ka kb ta tb) : p.1 ∈ ta := by
  rcases List.mem_flatMap.1 hp with ⟨a, ha, hpa⟩
  rcases hfil : tb.filter (fun b => decide (kb b = ka a)) with _ | ⟨c, rest⟩
  · rw [hfil] at hpa
    simp only [List.mem_singleton] at hpa
    rw [hpa]
    exact ha
  · rw [hfil] at hpa
    rcases List.mem_map.1 hpa with ⟨b, _, hb⟩
    rw [← hb]
    exact ha

theorem leftMerge_exists {α β κ : Type} [DecidableEq κ] (ka : α → κ)
    (kb : β → κ) (ta : List α) (tb : List β) (a : α) (ha : a ∈ ta) :
    ∃ ob, (a, ob) ∈ leftMerge ka kb ta tb ∧
      ((∀ b ∈ tb, kb b ≠ ka a) → ob = none) := by
  rcases hfil : tb.filter (fun b => decide (kb b = ka a)) with _ | ⟨c, rest⟩
  · refine ⟨none, List.mem_flatMap.2 ⟨a, ha, ?_⟩, fun _ => rfl⟩
    rw [hfil]
    exact List.mem_singleton.2 rfl
  · refine ⟨some c, List.mem_flatMap.2 ⟨a, ha, ?_⟩, fun hno => ?_⟩
    · rw [hfil]
      exact List.mem_map.2 ⟨c, List.mem_cons_self c rest, rfl⟩
    · have hc : c ∈ tb.filter (fun b => decide (kb b = ka a)) := by
        rw [hfil]
        exact List.mem_cons_self c rest
      rcases List.mem_filter.1 hc with ⟨hctb, hck⟩
      exact absurd (of_decide_eq_true hck) (hno c hctb)

theorem dupFlags_zero_iff {κ : Type} [DecidableEq κ] (seen : List κ)
    (l : List κ) :
    (dupFlags seen l).count true = 0 ↔ (l.Nodup ∧ ∀ k ∈ l, k ∉ seen) := by
  induction l generalizing seen with
  | nil => simp [dupFlags]
  | cons k ks ih =>
    simp only [dupFlags, List.count_cons, beq_iff_eq, decide_eq_true_eq,
      List.nodup_cons, List.forall_mem_cons]
    by_cases hk : k ∈ seen
    · simp [hk]
    · simp only [hk, if_false, Nat.add_zero, ih (k :: seen)]
      simp only [List.mem_cons, not_or]
      constructor
      · rintro ⟨hnd, hall⟩
        exact ⟨⟨fun hkks => (hall k hkks).1 rfl, hnd⟩, not_false,
          fun j hj => (hall j hj).2⟩
      · rintro ⟨⟨hkns, hnd⟩, _, hall⟩
        exact ⟨hnd, fun j hj => ⟨fun hjk => hkns (hjk ▸ hj), hall j hj⟩⟩

theorem dupCount_zero_iff {ρ κ : Type} [DecidableEq κ] (key : ρ → κ)
    (rows : List ρ) : dupCount key rows = 0 ↔ (rows.map key).Nodup := by
  unfold dupCount
  rw [dupFlags_zero_iff]
  simp

theorem groupAgg_key_mem {ρ κ μ : Type} [DecidableEq κ] (key : ρ → Option κ)
    (val : ρ → Option ℚ) (agg : List ℚ → μ) (kle : κ → κ → Bool)
    (rows : List ρ) (k : κ) (v : μ)
    (h : (k, v) ∈ groupAgg key val agg kle rows) :
    ∃ r ∈ rows, key r = some k := by
  unfold groupAgg at h
  rcases List.mem_map.1 h with ⟨k2, hk2, heq⟩
  have hfst := congrArg Prod.fst heq
  simp only at hfst
  rw [hfst] at hk2
  have hmem : k ∈ (rows.filterMap key).dedup :=
    ((sortIns_perm kle (rows.filterMap key).dedup).mem_iff).1 hk2
  exact List.mem_filterMap.1 (List.mem_dedup.1 hmem)

theorem filterMap_filter_isSome {ρ κ : Type} (key : ρ → Option κ)
    (rows : List ρ) :
    (rows.filter (fun r => (key r).isSome)).filterMap key = rows.filterMap key := by
  induction rows with
  | nil => rfl
  | cons r t ih =>
    rcases hk : key r with _ | k
    · rw [List.filter_cons_of_neg (by simp [hk]), ih, List.filterMap_cons, hk]
    · rw [List.filter_cons_of_pos (by simp [hk]), List.filterMap_cons,
        List.filterMap_cons, hk, ih]

theorem filter_keySome_comm {ρ κ : Type} [DecidableEq κ] (key : ρ → Option κ)
    (k : κ) (rows : List ρ) :
    (rows.filter (fun r => (key r).isSome)).filter
        (fun r => decide (key r = some k)) =
      rows.filter (fun r => decide (key r = some k)) := by
  induction rows with
  | nil => rfl
  | cons r t ih =>
    rcases hk : key r with _ | k2
    · rw [List.filter_cons_of_neg (by simp [hk]),
        List.filter_cons_of_neg (by simp [hk]), ih]
    · rw [List.filter_cons_of_pos (by simp [hk])]
      by_cases hkk : k2 = k
      · rw [List.filter_cons_of_pos (by simp [hk, hkk]),
          List.filter_cons_of_pos (by simp [hk, hkk]), ih]
      · rw [List.filter_cons_of_neg (by simp [hk, hkk]),
          List.filter_cons_of_neg (by simp [hk, hkk]), ih]

theorem groupAgg_drops_null_keys {ρ κ μ : Type} [DecidableEq κ]
    (key : ρ → Option κ) (val : ρ → Option ℚ) (agg : List ℚ → μ)
    (kle : κ → κ → Bool) (rows : List ρ) :
    groupAgg key val agg kle rows =
      groupAgg key val agg kle (rows.filter (fun r => (key r).isSome)) := by
  unfold groupAgg
  rw [filterMap_filter_isSome]
  simp only [filter_keySome_comm]

theorem addYoy_fst_mem (l : List (PQ × Option ℚ)) (x : PQ × (Option ℚ × Option ℚ))
    (hx : x ∈ addYoy l) : ∃ r ∈ l, x.1 = r.1 := by
  unfold addYoy at hx
  rcases List.mem_map.1 hx with ⟨ir, hir, heq⟩
  refine ⟨ir.2, List.snd_mem_of_mem_enum hir, ?_⟩
  rw [← heq]

theorem filter_keyeq_of_nodup {α κ : Type} [DecidableEq κ] (k : α → κ)
    (t : List α) (hn : (t.map k).Nodup) (a : α) (ha : a ∈ t) :
    t.filter (fun b => decide (k b = k a)) = [a] := by
  induction t with
  | nil => cases ha
  | cons x xs ih =>
    rw [List.map_cons, List.nodup_cons] at hn
    rcases List.mem_cons.1 ha with rfl | hax
    · rw [List.filter_cons_of_pos (by simp)]
      have hnil : xs.filter (fun b => decide (k b = k a)) = [] := by
        rw [List.filter_eq_nil_iff]
        intro b hb
        simp only [decide_eq_true_eq]
        intro hkb
        exact hn.1 (hkb ▸ List.mem_map_of_mem k hb)
      rw [hnil]
    · have hne : k x ≠ k a := by
        intro he
        exact hn.1 (he ▸ List.mem_map_of_mem k hax)
      rw [List.filter_cons_of_neg (by simp [hne]), ih hn.2 hax]

theorem leftMerge_self_eq {α κ : Type} [DecidableEq κ] (k : α → κ)
    (t : List α) (hn : (t.map k).Nodup) :
    leftMerge k k t t = t.map (fun a => (a, some a)) := by
  unfold leftMerge
  have haux : ∀ u : List α,
      (∀ a ∈ u, t.filter (fun b => decide (k b = k a)) = [a]) →
      (u.flatMap (fun a =>
        match t.filter (fun b => decide (k b = k a)) with
        | [] => [(a, none)]
        | m => m.map (fun b => (a, some b))))
      = u.map (fun a => (a, some a)) := by
    intro u hu
    induction u with
    | nil => rfl
    | cons x xs ihu =>
      rw [List.flatMap_cons, hu x (List.mem_cons_self x xs),
        ihu (fun a ha => hu a (List.mem_cons_of_mem x ha))]
      rfl
  exact haux t (fun a ha => filter_keyeq_of_nodup k t hn a ha)

theorem parse_quarter_eq_none_iff (l : List String) :
    parse_quarter l = none ↔ ∃ t ∈ l, parse_quarter_token t = none := by
  induction l with
  | nil => simp [parse_quarter]
  | cons x xs ih =>
    rcases hx : parse_quarter_token x with _ | d
    · simp [parse_quarter, hx]
    · rcases hxs : parse_quarter xs with _ | ds
      · simp only [parse_quarter, hx, hxs]
        simp only [hxs] at ih
        rcases ih.1 trivial with ⟨t, ht, hft⟩
        simp only [List.mem_cons]
        exact iff_of_true trivial ⟨t, Or.inr ht, hft⟩
      · simp only [parse_quarter, hx, hxs]
        simp only [hxs] at ih
        constructor
        · intro h
          cases h
        · rintro ⟨t, ht, hft⟩
          rcases List.mem_cons.1 ht with rfl | hts
          · rw [hft] at hx
            cases hx
          · have h2 : ∃ u ∈ xs, parse_quarter_token u = none := ⟨t, hts, hft⟩
            rw [← ih] at h2
            cases h2

/-- String constant: example province. -/
def albertaTok : String := "Alberta"

/-- String constant: example province. -/
def ontarioTok : String := "Ontario"

/-- C8: joining a table with itself on its own key (pandas merge with
how=left on a table whose key column is unique) returns a result with
the same row count, where each row carries exactly the values of the
corresponding input row (paired with the duplicated copy of itself that
the self-merge contributes). -/
theorem join_self_idempotent {α κ : Type} [DecidableEq κ] (k : α → κ)
    (t : List α) (hn : (t.map k).Nodup) :
    (leftMerge k k t t).length = t.length ∧
      leftMerge k k t t = t.map (fun a => (a, some a)) := by
  have h := leftMerge_self_eq k t hn
  exact ⟨by rw [h, List.length_map], h⟩

/-- Witness table for the self-join claim. -/
def wJoinTable : List (PQ × Option ℚ) :=
  [((albertaTok, ⟨2024, 1, 1⟩), none), ((ontarioTok, ⟨2024, 4, 1⟩), none)]

/-- Witness: the self-join theorem applied to a concrete two-row table
with unique (Province, Quarter) keys. -/
theorem join_self_idempotent_witness :
    (wJoinTable.map Prod.fst).Nodup ∧
      (leftMerge Prod.fst Prod.fst wJoinTable wJoinTable).length =
        wJoinTable.length ∧
      leftMerge Prod.fst Prod.fst wJoinTable wJoinTable =
        wJoinTable.map (fun a => (a, some a)) := by
  refine ⟨by decide, ?_, ?_⟩
  · exact (join_self_idempotent Prod.fst wJoinTable (by decide)).1
  · exact (join_self_idempotent Prod.fst wJoinTable (by decide)).2

/-- C1: after the outer-join sequence of
household_interest_income_dsr.py completes, the duplicate guard
computes the number of duplicated (Period_Quarter, GEO) keys; whenever
two or more merged rows share a key the run raises with that count in
the message (never returning a table), and otherwise the merged table
is released exactly as the joins produced it, so duplicates are never
silently deduplicated or averaged. -/
theorem dsr_join_duplicate_guard (inc intr dsrT : List SRow) :
    (¬ ((dsrMerged inc intr dsrT).map dKey).Nodup →
      0 < dupCount dKey (dsrMerged inc intr dsrT) ∧
        dsr_join inc intr dsrT =
          Except.error
            (dupMsgPrefix ++ Nat.repr (dupCount dKey (dsrMerged inc intr dsrT)))) ∧
    (((dsrMerged inc intr dsrT).map dKey).Nodup →
      dsr_join inc intr dsrT = Except.ok (dsrMerged inc intr dsrT)) := by
  constructor
  · intro hnd
    have hpos : 0 < dupCount dKey (dsrMerged inc intr dsrT) := by
      rcases Nat.eq_zero_or_pos (dupCount dKey (dsrMerged inc intr dsrT)) with h0 | hp
      · exact absurd ((dupCount_zero_iff dKey (dsrMerged inc intr dsrT)).1 h0) hnd
      · exact hp
    refine ⟨hpos, ?_⟩
    simp only [dsr_join]
    rw [if_pos hpos]
  · intro hnd
    have h0 : dupCount dKey (dsrMerged inc intr dsrT) = 0 :=
      (dupCount_zero_iff dKey (dsrMerged inc intr dsrT)).2 hnd
    simp only [dsr_join]
    rw [h0, if_neg (lt_irrefl 0)]

/-- Witness income series with two rows sharing the key
(2024-07-01, Alberta), as in the too-loose-filter scenario. -/
def wDupIncome : List SRow :=
  [((⟨2024, 7, 1⟩, albertaTok), none), ((⟨2024, 7, 1⟩, albertaTok), none)]

/-- Witness: the duplicate guard theorem applied to the scenario where
two Alberta rows share one quarter after filtering; the duplicate count
is positive and the run errors with that count. -/
theorem dsr_join_duplicate_guard_witness :
    ¬ ((dsrMerged wDupIncome [] []).map dKey).Nodup ∧
      (0 < dupCount dKey (dsrMerged wDupIncome [] []) ∧
        dsr_join wDupIncome [] [] =
          Except.error
            (dupMsgPrefix ++ Nat.repr (dupCount dKey (dsrMerged wDupIncome [] [])))) := by
  refine ⟨by decide, (dsr_join_duplicate_guard wDupIncome [] []).1 (by decide)⟩

theorem pickLabel_first (targets avail : List String) (i : Nat)
    (hi : i < targets.length) (hmem : targets.get ⟨i, hi⟩ ∈ avail)
    (hfirst : ∀ j (hj : j < i), targets.get ⟨j, Nat.lt_trans hj hi⟩ ∉ avail) :
    pickLabel targets avail = some (targets.get ⟨i, hi⟩) := by
  induction targets generalizing i with
  | nil => exact absurd hi (Nat.not_lt_zero i)
  | cons t ts ih =>
    cases i with
    | zero =>
      unfold pickLabel
      rw [List.find?_cons]
      have hc : avail.contains t = true := List.elem_iff.2 hmem
      rw [hc]
      rfl
    | succ j =>
      have h0 : t ∉ avail := hfirst 0 (Nat.succ_pos j)
      have hc : avail.contains t = false := by
        cases hcc : avail.contains t with
        | false => rfl
        | true => exact absurd (List.elem_iff.1 hcc) h0
      unfold pickLabel
      rw [List.find?_cons, hc]
      exact ih j (Nat.lt_of_succ_lt_succ hi) hmem
        (fun j2 hj2 => hfirst (j2 + 1) (Nat.succ_lt_succ hj2))

theorem pickLabel_perm (targets avail avail2 : List String)
    (hp : avail.Perm avail2) :
    pickLabel targets avail = pickLabel targets avail2 := by
  have hco : ∀ t, avail.contains t = avail2.contains t := by
    intro t
    cases hc : avail.contains t with
    | true =>
      have ht : t ∈ avail2 := hp.mem_iff.1 (List.elem_iff.1 hc)
      exact (List.elem_iff.2 ht).symm
    | false =>
      cases hc2 : avail2.contains t with
      | false => rfl
      | true =>
        have ht : t ∈ avail := hp.mem_iff.2 (List.elem_iff.1 hc2)
        rw [← hc]
        exact List.elem_iff.2 ht
  unfold pickLabel
  simp only [hco]

/-- C9: label resolution is order-sensitive on the candidate list: when
the target label at position i is present among the observed column
values and no earlier target is, the resolver picks exactly that label;
and the choice is invariant under any reordering of the observed data,
so the first label in the target list wins, never the label appearing
first in the data. -/
theorem label_order_sensitive (targets avail : List String) (i : Nat)
    (hi : i < targets.length) (hmem : targets.get ⟨i, hi⟩ ∈ avail)
    (hfirst : ∀ j (hj : j < i), targets.get ⟨j, Nat.lt_trans hj hi⟩ ∉ avail) :
    pickLabel targets avail = some (targets.get ⟨i, hi⟩) ∧
      ∀ avail2, avail.Perm avail2 →
        pickLabel targets avail2 = some (targets.get ⟨i, hi⟩) := by
  refine ⟨pickLabel_first targets avail i hi hmem hfirst, fun avail2 hp => ?_⟩
  rw [← pickLabel_perm targets avail avail2 hp]
  exact pickLabel_first targets avail i hi hmem hfirst

/-- Witness observed-value list in which the second target label occurs
before the first in data order. -/
def wAvail : List String := [householdDisposableTok, disposableTok]

/-- Witness: with both the first and second disposable-income labels
present and the data listing the second one first, the resolver still
returns the first label of the target list. -/
theorem label_order_sensitive_witness :
    DISPOSABLE_LABELS.get ⟨0, by decide⟩ ∈ wAvail ∧
      pickLabel DISPOSABLE_LABELS wAvail = some disposableTok := by
  refine ⟨by decide, ?_⟩
  have h := (label_order_sensitive DISPOSABLE_LABELS wAvail 0 (by decide)
    (by decide) (fun j hj => absurd hj (Nat.not_lt_zero j))).1
  exact h.trans (by decide)

/-- Counterexample to C4: the mortgage script's table also contains the
singular spelling million, so the scalar factor million (which is not
in the four-entry table the claim fixes) multiplies by 1000000 instead
of leaving the value unchanged. -/
theorem scalar_singular_counterexample :
    (apply_scalar_to_cad 7 (some millionTok)).1 = 7000000 ∧
      (apply_scalar_to_cad 7 (some millionTok)).1 ≠ 7 := by
  have hm : SCALAR_MAP_MORT (lowerStr millionTok) = some 1000000 := by decide
  constructor
  · simp only [apply_scalar_to_cad, hm]
    norm_num
  · simp only [apply_scalar_to_cad, hm]
    norm_num

/-- C4 amended: both normalizers multiply by a case-insensitively
looked-up multiplier with default 1 — apply_scalar through the
four-entry table of the claim, apply_scalar_to_cad through that table
extended with the singular spellings (unit, thousand, million,
billion); a missing scalar-factor column gives multiplier 1; the
result depends only on the lowercased factor. -/
theorem scalar_lookup_amended (v : ℚ) (s : String) :
    apply_scalar v s = v * specMultiplier s ∧
      (apply_scalar_to_cad v (some s)).1 = v * specMultiplierMort s ∧
      (apply_scalar_to_cad v (some s)).2 = v * specMultiplierMort s / 1000000 ∧
      apply_scalar_to_cad v none = (v, v / 1000000) ∧
      (∀ t : String, lowerStr s = lowerStr t →
        apply_scalar v s = apply_scalar v t) := by
  refine ⟨?_, ?_, ?_, by simp [apply_scalar_to_cad], fun t ht => by
    unfold apply_scalar
    rw [ht]⟩
  · unfold apply_scalar specMultiplier SCALAR_MAP
    split_ifs <;> norm_num
  · unfold apply_scalar_to_cad specMultiplierMort SCALAR_MAP_MORT
    simp only
    split_ifs <;> simp_all
  · unfold apply_scalar_to_cad specMultiplierMort SCALAR_MAP_MORT
    simp only
    split_ifs <;> simp_all

/-- String constant: uppercase spelling of millions. -/
def millionsUpperTok : String := "MILLIONS"

/-- Witness: the amended scalar theorem applied at the value 3 and the
factor MILLIONS, whose lowercasing equals millions, so both spellings
normalize identically. -/
theorem scalar_lookup_amended_witness :
    lowerStr millionsUpperTok = lowerStr millionsTok ∧
      apply_scalar 3 millionsUpperTok = apply_scalar 3 millionsTok := by
  exact ⟨by decide,
    (scalar_lookup_amended 3 millionsUpperTok).2.2.2.2 millionsTok (by decide)⟩

theorem digit_filter_keep (ds : List Char)
    (h2 : ∀ c ∈ ds, isDigitB c = true) :
    ds.filter (fun c => !(c.toNat = 32 || c.toNat = 45)) = ds := by
  rw [List.filter_eq_self]
  intro c hc
  have h := h2 c hc
  simp only [isDigitB, Bool.and_eq_true, decide_eq_true_eq] at h
  simp only [Bool.not_eq_true', Bool.or_eq_false_iff, decide_eq_false_iff_not]
  omega

theorem splitAtQ_append_digits (ds rest : List Char) (qc : Char)
    (hqc : isQChar qc = true) (h2 : ∀ c ∈ ds, isDigitB c = true) :
    splitAtQ (ds ++ qc :: rest) = some (ds, rest) := by
  induction ds with
  | nil => simp [splitAtQ, hqc]
  | cons c cs ih =>
    have hd := h2 c (List.mem_cons_self c cs)
    have hnq : isQChar c = false := by
      simp only [isDigitB, Bool.and_eq_true, decide_eq_true_eq] at hd
      simp only [isQChar, Bool.or_eq_false_iff, decide_eq_false_iff_not]
      omega
    simp only [List.cons_append, splitAtQ, hnq, Bool.false_eq_true, if_false,
      List.append_eq]
    rw [ih (fun x hx => h2 x (List.mem_cons_of_mem c hx))]
    rfl

theorem parse_quarter_token_shape (ds sep : List Char) (qc dc : Char)
    (h1 : ds ≠ []) (h2 : ∀ c ∈ ds, isDigitB c = true)
    (hsep : sep.filter (fun c => !(c.toNat = 32 || c.toNat = 45)) = [])
    (hqc : isQChar qc = true)
    (hqk : (!(qc.toNat = 32 || qc.toNat = 45)) = true)
    (hdk : 49 ≤ dc.toNat ∧ dc.toNat ≤ 52) (n : Nat) (hdg : digitVal dc = n) :
    parse_quarter_token (String.mk (ds ++ sep ++ [qc, dc])) =
      some ⟨valOfDigits ds, quarterMonth n, 1⟩ := by
  have hdk2 : (!(dc.toNat = 32 || dc.toNat = 45)) = true := by
    simp only [Bool.not_eq_true', Bool.or_eq_false_iff, decide_eq_false_iff_not]
    omega
  have hfil : (ds ++ sep ++ [qc, dc]).filter
      (fun c => !(c.toNat = 32 || c.toNat = 45)) = ds ++ [qc, dc] := by
    rw [List.filter_append, List.filter_append, digit_filter_keep ds h2, hsep,
      List.append_nil]
    congr 1
    rw [@List.filter_cons_of_pos Char
        (fun c => !(c.toNat = 32 || c.toNat = 45)) qc [dc] hqk,
      @List.filter_cons_of_pos Char
        (fun c => !(c.toNat = 32 || c.toNat = 45)) dc [] hdk2]
    rfl
  simp only [parse_quarter_token]
  rw [hfil, splitAtQ_append_digits ds [dc] qc hqc h2]
  simp only [parseNatDigits, if_pos (And.intro h1 h2)]
  rw [if_pos hdk, hdg]

/-- C5: for every all-digit year string, every quarter number n from 1
to 4, every separator style (none, hyphen or space) and either case of
the letter Q, the native-token path of parse_quarter maps the assembled
token to the first calendar day of quarter n of that year (Q1 = Jan 1,
Q2 = Apr 1, Q3 = Jul 1, Q4 = Oct 1) — one identical result for all six
spellings of the same quarter. -/
theorem quarter_token_parse (ds : List Char) (h1 : ds ≠ [])
    (h2 : ∀ c ∈ ds, isDigitB c = true) (sep : List Char)
    (hsep : sep = [] ∨ sep = ['-'] ∨ sep = [' '])
    (qc : Char) (hq : qc = 'Q' ∨ qc = 'q') (n : Nat) (dc : Char)
    (hn : (n = 1 ∧ dc = '1') ∨ (n = 2 ∧ dc = '2') ∨ (n = 3 ∧ dc = '3') ∨
      (n = 4 ∧ dc = '4')) :
    parse_quarter_token (String.mk (ds ++ sep ++ [qc, dc])) =
      some ⟨valOfDigits ds, quarterMonth n, 1⟩ := by
  rcases hsep with rfl | rfl | rfl <;> rcases hq with rfl | rfl <;>
    rcases hn with ⟨rfl, rfl⟩ | ⟨rfl, rfl⟩ | ⟨rfl, rfl⟩ | ⟨rfl, rfl⟩ <;>
    exact parse_quarter_token_shape ds _ _ _ h1 h2 (by decide) (by decide)
      (by decide) (by decide) _ (by decide)

/-- String constant: the hyphen-lowercase spelling of 2024 third
quarter. -/
def q3tok2024 : String := "2024-q3"

/-- Witness: the token parse theorem applied to the year digits 2024
with hyphen separator and lowercase q, quarter 3, giving July 1 2024;
the same value the parser returns on the literal token. -/
theorem quarter_token_parse_witness :
    parse_quarter_token q3tok2024 = some ⟨2024, 7, 1⟩ := by
  have h := quarter_token_parse (['2', '0', '2', '4']) (by decide) (by decide)
    (['-']) (Or.inr (Or.inl rfl)) ('q') (Or.inr rfl) 3 ('3')
    (Or.inr (Or.inr (Or.inl ⟨rfl, rfl⟩)))
  have hs : q3tok2024 = String.mk (['2', '0', '2', '4'] ++ ['-'] ++ ['q', '3']) := by
    decide
  rw [hs, h]
  decide

/-- String constant: an unparseable period token. -/
def garbageTok : String := "garbage"

/-- String constant: a well-formed native quarter token. -/
def q1tok2024 : String := "2024Q1"

/-- Counterexample to C6: on the native quarter path
(household_interest_income_dsr.py parse_quarter), one unparseable
REF_DATE aborts the whole series — the run errors instead of mapping
the row to a null period — even though the other token of the column
parses fine on its own. -/
theorem quarter_parse_abort_counterexample :
    parse_quarter [garbageTok, q1tok2024] = none ∧
      parse_quarter_token q1tok2024 = some ⟨2024, 1, 1⟩ := by
  constructor
  · decide
  · decide

/-- C6 amended: on the calendar-date paths an unparseable string is
coerced to a null period (never a sentinel date) and rows with null
keys are excluded from every groupby aggregation; on the native quarter
path the series parse errors exactly when some token is unparseable,
aborting the run instead of dropping the row. -/
theorem temporal_null_handling_amended {ρ κ μ : Type} [DecidableEq κ]
    (key : ρ → Option κ) (val : ρ → Option ℚ) (agg : List ℚ → μ)
    (kle : κ → κ → Bool) (rows : List ρ) (tokens : List String)
    (s : String) :
    groupAgg key val agg kle rows =
      groupAgg key val agg kle (rows.filter (fun r => (key r).isSome)) ∧
    (parse_quarter tokens = none ↔ ∃ t ∈ tokens, parse_quarter_token t = none) ∧
    (to_month_start s = none ∨
      ∃ d, toDateCoerce s = some d ∧ to_month_start s = some (monthStartOf d)) := by
  refine ⟨groupAgg_drops_null_keys key val agg kle rows,
    parse_quarter_eq_none_iff tokens, ?_⟩
  rcases hd : toDateCoerce s with _ | d
  · exact Or.inl (by simp [to_month_start, hd])
  · exact Or.inr ⟨d, rfl, by simp [to_month_start, hd]⟩

/-- Counterexample series for the year-over-year claim: an Alberta CPI
series, sorted by quarter, with the 2021Q1 row absent (a gap).  The
positional pct_change(4) at 2021Q2 divides by the 2020Q1 value, five
calendar quarters earlier, not by the 2020Q2 value four quarters
earlier. -/
def cexSeries : List (PQ × Option ℚ) :=
  [((albertaTok, ⟨2020, 1, 1⟩), some 100), ((albertaTok, ⟨2020, 4, 1⟩), some 110),
   ((albertaTok, ⟨2020, 7, 1⟩), some 105), ((albertaTok, ⟨2020, 10, 1⟩), some 108),
   ((albertaTok, ⟨2021, 4, 1⟩), some 121)]

/-- Counterexample to C2: on the gapped series the code's yoy value at
quarter 2021-04-01 is 21 percent (positional, relative to 2020Q1) while
the value four quarterly periods earlier (2020Q2) gives 10 percent; the
two disagree, so yoy is not computed against the quarter exactly four
quarterly periods earlier. -/
theorem yoy_calendar_counterexample :
    (addYoy cexSeries).get? 4 =
      some ((albertaTok, ⟨2021, 4, 1⟩), (some 121, some 21)) ∧
      yoy_spec_by_quarter cexSeries albertaTok ⟨2021, 4, 1⟩ = some 10 ∧
      ¬ ((some (21 : ℚ)) = some (10 : ℚ)) := by
  refine ⟨?_, ?_, by norm_num⟩
  · norm_num [addYoy, cexSeries, pctChange4, List.enum, List.enumFrom,
      List.filter, albertaTok]
  · norm_num [yoy_spec_by_quarter, cexSeries, quarterIndex, List.find?,
      albertaTok]

/-- C2 amended: within an entity's quarter-ordered series the code's
year-over-year value at position i is computed from the value four
positions earlier (which is four quarterly periods earlier exactly when
the series has no gaps): it is null precisely when there are fewer than
four predecessors or either endpoint is missing — missing values are
never filled — and otherwise equals (cur - prev)/prev * 100. -/
theorem yoy_positional_semantics (vals : List (Option ℚ)) (i : Nat) :
    (pctChange4 vals i = none ↔
      i < 4 ∨ (vals.get? (i - 4)).join = none ∨ (vals.get? i).join = none) ∧
    (∀ c p : ℚ, 4 ≤ i → vals.get? (i - 4) = some (some p) →
      vals.get? i = some (some c) → p ≠ 0 →
      (pctChange4 vals i).map (fun x => x * 100) = some ((c - p) / p * 100)) := by
  constructor
  · by_cases h4 : i < 4
    · simp [pctChange4, h4]
    · unfold pctChange4
      rw [if_neg h4]
      rcases hp : (vals.get? (i - 4)).join with _ | p <;>
        rcases hc : (vals.get? i).join with _ | c <;> simp [h4]
  · intro c p h4 hp hc hpne
    unfold pctChange4
    rw [if_neg (Nat.not_lt.2 h4),
      show (vals.get? (i - 4)).join = some p from by rw [hp]; rfl,
      show (vals.get? i).join = some c from by rw [hc]; rfl,
      show (some (c / p - 1) : Option ℚ).map (fun x => x * 100) =
        some ((c / p - 1) * 100) from rfl, div_sub_one hpne]

/-- Witness values for the positional yoy theorem: a gap-free series. -/
def wYoyVals : List (Option ℚ) :=
  [some 100, some 110, some 105, some 108, some 121]

/-- Witness: the positional yoy theorem applied at position 4 of a five
element series with endpoints 100 and 121: the yoy percentage is
(121 - 100)/100 * 100. -/
theorem yoy_positional_semantics_witness :
    wYoyVals.get? 0 = some (some (100 : ℚ)) ∧
      wYoyVals.get? 4 = some (some (121 : ℚ)) ∧
      (pctChange4 wYoyVals 4).map (fun x => x * 100) =
        some (((121 : ℚ) - 100) / 100 * 100) := by
  refine ⟨by decide, by decide, ?_⟩
  exact (yoy_positional_semantics wYoyVals 4).2 121 100 (by norm_num)
    (by decide) (by decide) (by norm_num)

/-- A concrete fact row with zero disposable income (as produced when
every raw income cell of the group failed numeric coercion, since
groupby sum of an all-missing group is 0), a joined mortgage balance of
100 and a posted rate of 5 percent. -/
def cexFactRow : FactRow :=
  ((((((albertaTok, ⟨2024, 7, 1⟩), 0), none), none),
      some ((albertaTok, ⟨2024, 7, 1⟩), 100)),
    some (⟨2024, 7, 1⟩, (none, some 5)))

/-- Counterexample to C3: on a fact row whose disposable income is zero
while mortgage balance and rate are present, the derived ratio column
is positive infinity — not null — because the division is an unguarded
pandas float division. -/
theorem interest_service_zero_income_counterexample :
    disposableIncomeQ cexFactRow = 0 ∧
      interestServiceQ cexFactRow = Val.inf ∧
      isna (interestServiceQ cexFactRow) = false := by
  refine ⟨rfl, ?_, ?_⟩
  · norm_num [interestServiceQ, interestCostProxyQ, cexFactRow, vdiv, vmul,
      nonBankMortVal, mortgage5Val, disposableIncomeQ]
  · norm_num [interestServiceQ, interestCostProxyQ, cexFactRow, vdiv, vmul,
      nonBankMortVal, mortgage5Val, disposableIncomeQ, isna]

theorem proxy_shape (r : FactRow) :
    (∃ q : ℚ, interestCostProxyQ r = Val.fin q) ∨
      interestCostProxyQ r = Val.nan := by
  unfold interestCostProxyQ nonBankMortVal mortgage5Val
  rcases r.1.2 with _ | m
  · right
    simp [vmul, vdiv]
  · rcases r.2 with _ | q
    · right
      simp [vmul, vdiv]
    · obtain ⟨qd, qv1, qv2⟩ := q
      rcases qv2 with _ | x
      · right
        simp [vmul, vdiv]
      · left
        refine ⟨m.2 * (x / 100), ?_⟩
        simp [vmul, vdiv, show ¬ (100 : ℚ) = 0 from by norm_num]

/-- C3 amended: the derived interest service ratio is null exactly when
the interest-cost proxy is null (a missing mortgage or rate column) or
both the proxy and the disposable income are zero; when disposable
income is zero and the proxy is a nonzero non-null value, the ratio is
a signed infinity rather than null. -/
theorem interest_service_null_iff (r : FactRow) :
    (isna (interestServiceQ r) = true ↔
      isna (interestCostProxyQ r) = true ∨
        (interestCostProxyQ r = Val.fin 0 ∧ disposableIncomeQ r = 0)) ∧
    (disposableIncomeQ r = 0 → isna (interestCostProxyQ r) = false →
      interestCostProxyQ r ≠ Val.fin 0 →
      interestServiceQ r = Val.inf ∨ interestServiceQ r = Val.ninf) := by
  rcases proxy_shape r with ⟨q, hq⟩ | hnan
  · unfold interestServiceQ
    rw [hq]
    constructor
    · by_cases hinc : disposableIncomeQ r = 0
      · rw [hinc]
        by_cases hq0 : q = 0
        · subst hq0
          simp [vdiv, isna, hq]
        · rcases lt_or_gt_of_ne hq0 with hneg | hpos
          · simp [vdiv, isna, hq, hq0, not_lt.2 (le_of_lt hneg)]
          · simp [vdiv, isna, hq, hq0, hpos]
      · simp [vdiv, isna, hq, hinc]
    · intro hinc hna hne
      rw [hinc]
      have hq0 : q ≠ 0 := fun h => hne (by rw [h])
      by_cases hpos : 0 < q
      · left
        simp [vdiv, hq0, hpos]
      · right
        simp [vdiv, hq0, hpos]
  · unfold interestServiceQ
    rw [hnan]
    constructor
    · simp [vdiv, isna, hnan]
    · intro _ hna _
      simp [isna] at hna

/-- A second concrete fact row for the amended-claim witness: income 2,
mortgage 100, rate 5, so the ratio is finite and non-null. -/
def wFactRow3 : FactRow :=
  ((((((ontarioTok, ⟨2023, 1, 1⟩), 0), none), none),
      some ((ontarioTok, ⟨2023, 1, 1⟩), 100)),
    some (⟨2023, 1, 1⟩, (none, some 5)))

/-- Witness: the amended ratio theorem applied to a zero-income row
with a nonzero proxy; the ratio comes out as a signed infinity. -/
theorem interest_service_null_iff_witness :
    disposableIncomeQ wFactRow3 = 0 ∧
      isna (interestCostProxyQ wFactRow3) = false ∧
      interestCostProxyQ wFactRow3 ≠ Val.fin 0 ∧
      (interestServiceQ wFactRow3 = Val.inf ∨
        interestServiceQ wFactRow3 = Val.ninf) := by
  have h1 : disposableIncomeQ wFactRow3 = 0 := rfl
  have h2 : isna (interestCostProxyQ wFactRow3) = false := by
    norm_num [interestCostProxyQ, nonBankMortVal, mortgage5Val, wFactRow3,
      vdiv, vmul, isna]
  have h3 : interestCostProxyQ wFactRow3 ≠ Val.fin 0 := by
    norm_num [interestCostProxyQ, nonBankMortVal, mortgage5Val, wFactRow3,
      vdiv, vmul]
  exact ⟨h1, h2, h3, (interest_service_null_iff wFactRow3).2 h1 h2 h3⟩

/-- C7: the fact join of pipeline.py is outer-preserving on the base
income table: every row of income_q reappears in a fact row, and for a
base key with no match in the CPI, unemployment, mortgage or rates
table, the corresponding joined columns of that row are null. -/
theorem fact_left_join_preserves_base (label : String) (inc : List IncomeRow)
    (cpi : List CpiRow) (un : List UnempRow) (mo : List MortRow)
    (pr m5 : List (Option Date × Option ℚ)) (a : IncQ)
    (ha : a ∈ income_q label inc) :
    ∃ r ∈ fact label inc cpi un mo pr m5,
      r.1.1.1.1 = a ∧
      ((∀ c ∈ cpi_q cpi, c.1 ≠ a.1) → r.1.1.1.2 = none) ∧
      ((∀ u ∈ unemp_q un, u.1 ≠ a.1) → r.1.1.2 = none) ∧
      ((∀ m ∈ mort_q mo, m.1 ≠ a.1) → r.1.2 = none) ∧
      ((∀ q ∈ rates_q pr m5, q.1 ≠ a.1.2) → r.2 = none) := by
  obtain ⟨ob1, h1, hn1⟩ := leftMerge_exists (fun a : IncQ => a.1)
    (fun c : CpiQ => c.1) (income_q label inc) (cpi_q cpi) a ha
  obtain ⟨ob2, h2, hn2⟩ := leftMerge_exists (fun f : Fact1 => f.1.1)
    (fun u : UnQ => u.1) _ (unemp_q un) (a, ob1) h1
  obtain ⟨ob3, h3, hn3⟩ := leftMerge_exists (fun f : Fact2 => f.1.1.1)
    (fun m : MortQ => m.1) _ (mort_q mo) ((a, ob1), ob2) h2
  obtain ⟨ob4, h4, hn4⟩ := leftMerge_exists (fun f : Fact3 => f.1.1.1.1.2)
    (fun q : RateQ => q.1) _ (rates_q pr m5) (((a, ob1), ob2), ob3) h3
  refine ⟨((((a, ob1), ob2), ob3), ob4), ?_, rfl, hn1, hn2, hn3, hn4⟩
  unfold fact factMerged
  exact ((sortIns_perm _ _).mem_iff).2 h4

/-- String constant: a first-quarter reference date. -/
def ref2024q1Tok : String := "2024-01-01"

/-- String constant: a second-quarter reference date. -/
def ref2024q2Tok : String := "2024-04-01"

/-- Witness income table: Ontario disposable income rows for 2024Q1 and
2024Q2. -/
def wIncRows : List IncomeRow :=
  [⟨ontarioTok, ref2024q1Tok, none, disposableTok⟩,
   ⟨ontarioTok, ref2024q2Tok, none, disposableTok⟩]

/-- Witness CPI table: an Ontario all-items row for 2024Q2 only, so Q1
has no CPI match. -/
def wCpiRows : List CpiRow :=
  [⟨ontarioTok, ref2024q2Tok, none, allItemsTok, cpiBaseTok⟩]

/-- The quarterly income row for Ontario 2024Q1 in the witness data. -/
def wIncQ1 : IncQ := ((ontarioTok, ⟨2024, 1, 1⟩), 0)

/-- Witness: the left-join theorem applied to the spec scenario — an
income base with Q1 and Q2 and a CPI series missing Q1; the Q1 base row
survives into the fact table with null CPI columns. -/
theorem fact_left_join_preserves_base_witness :
    wIncQ1 ∈ income_q disposableTok wIncRows ∧
      ∃ r ∈ fact disposableTok wIncRows wCpiRows [] [] [] [],
        r.1.1.1.1 = wIncQ1 ∧
        ((∀ c ∈ cpi_q wCpiRows, c.1 ≠ wIncQ1.1) → r.1.1.1.2 = none) ∧
        ((∀ u ∈ unemp_q [], u.1 ≠ wIncQ1.1) → r.1.1.2 = none) ∧
        ((∀ m ∈ mort_q [], m.1 ≠ wIncQ1.1) → r.1.2 = none) ∧
        ((∀ q ∈ rates_q [] [], q.1 ≠ wIncQ1.1.2) → r.2 = none) :=
  ⟨by decide, fact_left_join_preserves_base disposableTok wIncRows wCpiRows
    [] [] [] [] wIncQ1 (by decide)⟩

theorem income_q_not_canada (label : String) (inc : List IncomeRow)
    (x : IncQ) (hx : x ∈ income_q label inc) : x.1.1 ≠ canadaTok := by
  obtain ⟨k, v⟩ := x
  obtain ⟨r, hr, hk⟩ := groupAgg_key_mem incomeKey (fun r => r.VALUE) sumAgg
    pqLe _ k v hx
  rcases List.mem_filter.1 hr with ⟨_, hf⟩
  simp only [incomeFilter, Bool.and_eq_true, Bool.not_eq_true',
    decide_eq_false_iff_not, decide_eq_true_eq] at hf
  simp only [incomeKey, to_quarter_start_from_date, Option.map_map,
    Option.map_eq_some'] at hk
  obtain ⟨d, _, hkey⟩ := hk
  intro hc
  apply hf.1
  rw [← hkey] at hc
  exact hc

theorem cpi_q_not_canada (cpi : List CpiRow) (x : CpiQ)
    (hx : x ∈ cpi_q cpi) : x.1.1 ≠ canadaTok := by
  obtain ⟨r0, hr0, hfst⟩ := addYoy_fst_mem _ x hx
  have hr1 : r0 ∈ groupAgg cpiKey (fun r => r.VALUE) meanAgg pqLe
      (cpi.filter cpiFilter) := ((sortIns_perm _ _).mem_iff).1 hr0
  obtain ⟨k, v⟩ := r0
  obtain ⟨r, hr, hk⟩ := groupAgg_key_mem cpiKey (fun r => r.VALUE) meanAgg
    pqLe _ k v hr1
  rcases List.mem_filter.1 hr with ⟨_, hf⟩
  simp only [cpiFilter, Bool.and_eq_true, Bool.not_eq_true',
    decide_eq_false_iff_not, decide_eq_true_eq] at hf
  simp only [cpiKey, to_month_start, Option.map_map, Option.map_eq_some'] at hk
  obtain ⟨d, _, hkey⟩ := hk
  rw [hfst]
  intro hc
  apply hf.2
  rw [← hkey] at hc
  exact hc

theorem unemp_q_not_canada (un : List UnempRow) (x : UnQ)
    (hx : x ∈ unemp_q un) : x.1.1 ≠ canadaTok := by
  obtain ⟨k, v⟩ := x
  obtain ⟨r, hr, hk⟩ := groupAgg_key_mem unempKey (fun r => r.VALUE) meanAgg
    pqLe _ k v hx
  rcases List.mem_filter.1 hr with ⟨_, hf⟩
  simp only [unempFilter, Bool.and_eq_true, Bool.not_eq_true',
    decide_eq_false_iff_not, decide_eq_true_eq] at hf
  simp only [unempKey, to_month_start, Option.map_map, Option.map_eq_some'] at hk
  obtain ⟨d, _, hkey⟩ := hk
  intro hc
  apply hf.2
  rw [← hkey] at hc
  exact hc

theorem mort_q_not_canada (mo : List MortRow) (x : MortQ)
    (hx : x ∈ mort_q mo) : x.1.1 ≠ canadaTok := by
  obtain ⟨k, v⟩ := x
  obtain ⟨r, hr, hk⟩ := groupAgg_key_mem mortKey (fun r => r.VALUE) sumAgg
    pqLe _ k v hx
  rcases List.mem_filter.1 hr with ⟨_, hf⟩
  simp only [mortFilter, Bool.and_eq_true, Bool.not_eq_true',
    decide_eq_false_iff_not] at hf
  simp only [mortKey, to_quarter_start_from_date, Option.map_map,
    Option.map_eq_some'] at hk
  obtain ⟨d, _, hkey⟩ := hk
  intro hc
  apply hf.1
  rw [← hkey] at hc
  exact hc

/-- C10: every province-grain quarterly table of pipeline.py is
filtered to GEO different from Canada before aggregation, and since the
income table is the base of the left-join sequence, every row of the
final fact table has a Province different from Canada. -/
theorem fact_rows_not_canada (label : String) (inc : List IncomeRow)
    (cpi : List CpiRow) (un : List UnempRow) (mo : List MortRow)
    (pr m5 : List (Option Date × Option ℚ)) :
    (∀ x ∈ income_q label inc, x.1.1 ≠ canadaTok) ∧
    (∀ x ∈ cpi_q cpi, x.1.1 ≠ canadaTok) ∧
    (∀ x ∈ unemp_q un, x.1.1 ≠ canadaTok) ∧
    (∀ x ∈ mort_q mo, x.1.1 ≠ canadaTok) ∧
    (∀ r ∈ fact label inc cpi un mo pr m5, provinceOf r ≠ canadaTok) := by
  refine ⟨fun x hx => income_q_not_canada label inc x hx,
    fun x hx => cpi_q_not_canada cpi x hx,
    fun x hx => unemp_q_not_canada un x hx,
    fun x hx => mort_q_not_canada mo x hx, fun r hr => ?_⟩
  unfold fact factMerged at hr
  have hm := ((sortIns_perm _ _).mem_iff).1 hr
  have h3 := leftMerge_fst_mem _ _ _ _ r hm
  have h2 := leftMerge_fst_mem _ _ _ _ r.1 h3
  have h1 := leftMerge_fst_mem _ _ _ _ r.1.1 h2
  have h0 := leftMerge_fst_mem _ _ _ _ r.1.1.1 h1
  exact income_q_not_canada label inc r.1.1.1.1 h0

/-- The single fact row produced by the witness pipeline run for
Ontario 2024Q1. -/
def wFactRow10 : FactRow :=
  ((((((ontarioTok, ⟨2024, 1, 1⟩), 0), none), none), none), none)

/-- Witness: the no-Canada theorem applied to a concrete pipeline run
whose fact table contains the Ontario 2024Q1 row. -/
theorem fact_rows_not_canada_witness :
    wFactRow10 ∈ fact disposableTok wIncRows [] [] [] [] [] ∧
      provinceOf wFactRow10 ≠ canadaTok :=
  ⟨by decide, (fact_rows_not_canada disposableTok wIncRows [] [] [] []
    []).2.2.2.2 wFactRow10 (by decide)⟩
